import Mathlib

/-!
Verification of the sound/instance registry and handle-resolution layer of
the `Player` class (src/player.cpp, src/player.h).

The embedding mirrors the C++ source shallowly:

* `ActiveSound` mirrors `struct ActiveSound` (the `SoLoud::Wav sound` member
  is engine-owned; its observable responses are passed as parameters to the
  operations that consult it).
* The member `std::vector<std::unique_ptr<ActiveSound>> sounds` is modelled
  as `List (Option ActiveSound)`: `sounds.push_back(std::make_unique<...>())`
  appends a `some`, while `sounds.emplace_back()` (no arguments) appends a
  default-constructed `unique_ptr`, i.e. a null pointer, modelled as `none`.
* Calls into the external collaborators (`soloud`, `speech`, `Wav::load`)
  are recorded in an `EngineCall` trace returned by each operation, and the
  values those collaborators produce (decode result, issued handle,
  synthesis result, reported length, ...) are explicit parameters.
* `unsigned int` values (hashes, handles) are `Nat`; the cast
  `(unsigned int)std::hash<std::string>{}(...)` is `% 2^32` of an abstract
  hash function.  Seconds (`double`) are `Rat`.
* Dereferencing a null `unique_ptr` entry (`f->soundHash`, `f.get()->...`)
  is undefined behavior in C++.  The model treats a `none` entry as a
  non-match/skip, and every theorem whose execution path would dereference
  list entries carries the well-formedness hypothesis `WFSounds` (no null
  entries), so the theorems only speak about states where the source has
  defined behavior.
-/

/-- Mirrors `struct ActiveSound` (player.h): `completeFileName`, the list
`handle` of live playback handles, and the identity `soundHash`.  The
`SoLoud::Wav sound` member is external engine data and carries no state
observable by the registry logic itself. -/
structure ActiveSound where
  completeFileName : String
  handle : List Nat
  soundHash : Nat
  deriving Repr, DecidableEq

/-- The registry-relevant state of class `Player`: the `sounds` vector
(`none` models a null `unique_ptr` entry produced by `emplace_back()`)
and the `mInited` flag. -/
structure PlayerState where
  sounds : List (Option ActiveSound)
  mInited : Bool
  deriving Repr, DecidableEq

/-- One call made into an external collaborator. -/
inductive EngineCall where
  /-- `sounds.back()->sound.load(path)` -/
  | wavLoad (path : String)
  /-- `soloud.play(sound->sound, volume, pan, paused, 0)` -/
  | soloudPlay (soundHash : Nat)
  /-- `soloud.play3d(sound->sound, ...)` -/
  | soloudPlay3d (soundHash : Nat)
  /-- `soloud.stop(handle)` -/
  | soloudStop (h : Nat)
  /-- `s->get()->sound.stop()` inside `stopSound` -/
  | soundStop (soundHash : Nat)
  /-- `speech.setText(text)` -/
  | speechSetText (text : String)
  /-- `soloud.play(speech)` -/
  | soloudPlaySpeech
  /-- `soloud.seek(handle, time)` -/
  | soloudSeek (h : Nat)
  /-- `soloud.setPause(h, !soloud.getPause(h))` -/
  | soloudSetPause (h : Nat)
  /-- `soloud.setLooping(handle, enable)` -/
  | soloudSetLooping (h : Nat) (enable : Bool)
  deriving Repr, DecidableEq

/-- Modelled from the spec: the `PlayerErrors` codes live in `enums.h`,
which is not among the sources; they are integer result codes, `noError`
is zero (it equals the engine's `SO_NO_ERROR`, since engine results are
returned through the cast `(PlayerErrors)result`), and the named codes
are pairwise distinct.  The concrete values of `backendNotInited` and
`fileAlreadyLoaded` are unknown; they are chosen outside the engine's
result range 0..7.  No claim depends on the numeric choice. -/
def noError : Nat := 0

/-- Engine decode failure code `FILE_LOAD_FAILED` (SoLoud result 3),
used only to build concrete failing inputs. -/
def fileLoadFailed : Nat := 3

/-- Modelled from the spec: `backendNotInited` member of `PlayerErrors`. -/
def backendNotInited : Nat := 8

/-- Modelled from the spec: `fileAlreadyLoaded` member of `PlayerErrors`. -/
def fileAlreadyLoaded : Nat := 9

/-- The `find_if` lambda `f->soundHash == h` over a `sounds` entry.  On a
null entry the source would dereference a null pointer (UB); the model
treats it as a non-match. -/
def hashMatches (h : Nat) (f : Option ActiveSound) : Bool :=
  match f with
  | some a => a.soundHash == h
  | none => false

/-- No entry of the `sounds` vector is a null pointer: all the dereferences
performed by the source's loops and lambdas are defined behavior. -/
def WFSounds (l : List (Option ActiveSound)) : Prop :=
  ∀ f ∈ l, f ≠ none

instance : DecidablePred WFSounds := fun l =>
  decidable_of_iff (∀ f ∈ l, f ≠ none) Iff.rfl

/-- The handles contributed by one `sounds` entry (none for a null entry). -/
def optHandles (f : Option ActiveSound) : List Nat :=
  match f with
  | some a => a.handle
  | none => []

/-- All handles listed by all (non-null) assets, in scan order. -/
def handlesOf : List (Option ActiveSound) → List Nat
  | [] => []
  | f :: rest => optHandles f ++ handlesOf rest

/-- Replace the first entry matching hash `h` (the target of the iterator
returned by `std::find_if` in `play`/`play3d`) using `g`. -/
def updateFirstMatch (h : Nat) (g : ActiveSound → ActiveSound) :
    List (Option ActiveSound) → List (Option ActiveSound)
  | [] => []
  | f :: rest =>
    if hashMatches h f then (f.map g) :: rest
    else f :: updateFirstMatch h g rest

/-- Replace the entry at index `i` using `g` (the in-place mutation through
the pointer returned by `findByHandle`). -/
def modifyIdx (g : ActiveSound → ActiveSound) :
    Nat → List (Option ActiveSound) → List (Option ActiveSound)
  | _, [] => []
  | 0, f :: rest => (f.map g) :: rest
  | i + 1, f :: rest => f :: modifyIdx g i rest

/-- Models `v.erase(std::remove_if(v.begin(), v.end(), pred))` on a vector
of `unsigned int` with `pred = (== h)`: `remove_if` compacts the
non-matching elements to the front, leaving the tail elements with their
old values, and the single-iterator `erase` then removes exactly one
element, the one at the returned iterator's position.  The resulting
content is `filter ++ (original dropped past the first position after the
logical end)`.  When no element matches, `erase(end())` would be UB; the
model then returns the list unchanged (`stop` only reaches the erase after
`findByHandle` succeeded, so that case is unreachable there). -/
def eraseRemove (h : Nat) (l : List Nat) : List Nat :=
  let kept := l.filter (fun x => !(x == h))
  kept ++ l.drop (kept.length + 1)

/-- The same single-iterator erase-remove idiom applied by `stopSound` to
the `sounds` vector with `pred = (f.get()->soundHash == h)`. -/
def eraseRemoveSounds (h : Nat) (l : List (Option ActiveSound)) :
    List (Option ActiveSound) :=
  let kept := l.filter (fun f => !(hashMatches h f))
  kept ++ l.drop (kept.length + 1)

namespace Player

/-- `Player::getSoundsCount` (player.cpp:51-54): `sounds.size()`. -/
def getSoundsCount (st : PlayerState) : Nat :=
  st.sounds.length

/-- `Player::loadFile` (player.cpp:82-108).  `hashStr` abstracts
`std::hash<std::string>` (cast to `unsigned int` via `% 2^32`),
`decodeResult` is the value `sound.load(...)` would return, `hashIn` is
the caller's value of the by-reference output parameter `hash`.
Returns (result code, final value of `hash`, new state, engine calls).
Source order: the new `ActiveSound` is pushed and its fields set BEFORE
decoding; on decode failure the code executes `sounds.emplace_back()`,
appending a null entry, and returns the decode result. -/
def loadFile (hashStr : String → Nat) (decodeResult : Nat)
    (completeFileName : String) (hashIn : Nat) (st : PlayerState) :
    Nat × Nat × PlayerState × List EngineCall :=
  if !st.mInited then (backendNotInited, hashIn, st, [])
  else
    let newHash := hashStr completeFileName % 2 ^ 32
    if st.sounds.any (hashMatches newHash) then
      (fileAlreadyLoaded, 0, st, [])
    else
      let newSound : ActiveSound :=
        { completeFileName := completeFileName, handle := [], soundHash := newHash }
      if decodeResult != noError then
        (decodeResult, newHash,
         { st with sounds := st.sounds ++ [some newSound, none] },
         [.wavLoad completeFileName])
      else
        (noError, newHash,
         { st with sounds := st.sounds ++ [some newSound] },
         [.wavLoad completeFileName])

/-- The inner `while` loop of `Player::findByHandle`: index of the first
occurrence of `h` in a handle list. -/
def idxOfHandle (h : Nat) : List Nat → Option Nat
  | [] => none
  | x :: rest =>
    if x == h then some 0 else (idxOfHandle h rest).map (· + 1)

/-- The inner search applied to one `sounds` entry; a null entry would be a
null-pointer dereference (UB) in the source and is modelled as a skip. -/
def idxInEntry (h : Nat) (f : Option ActiveSound) : Option Nat :=
  match f with
  | some a => idxOfHandle h a.handle
  | none => none

/-- `Player::findByHandle` (player.cpp:273-294): scans assets in order and,
within each, handles in order; returns the index of the first asset whose
list contains `h` together with the index of `h` in that list
(`*handleId`), or `none` for the source's `nullptr`. -/
def findByHandle (h : Nat) : List (Option ActiveSound) → Option (Nat × Nat)
  | [] => none
  | f :: rest =>
    match idxInEntry h f with
    | some j => some (0, j)
    | none => (findByHandle h rest).map (fun p => (p.1 + 1, p.2))

/-- `Player::play` (player.cpp:130-147).  `engineHandle` is the handle
`soloud.play` would issue.  If no asset matches the hash, returns 0 with
no state change and no engine call; otherwise appends the engine's handle
(unvalidated, even 0) to the first matching asset's list and returns it. -/
def play (engineHandle : Nat) (soundHash : Nat) (st : PlayerState) :
    Nat × PlayerState × List EngineCall :=
  if st.sounds.any (hashMatches soundHash) then
    let newSounds := updateFirstMatch soundHash
      (fun a => { a with handle := a.handle ++ [engineHandle] }) st.sounds
    (engineHandle, { st with sounds := newSounds }, [.soloudPlay soundHash])
  else
    (0, st, [])

/-- `Player::play3d` (player.cpp:319-347): identical registry behavior to
`play`, forwarding to `soloud.play3d` instead. -/
def play3d (engineHandle : Nat) (soundHash : Nat) (st : PlayerState) :
    Nat × PlayerState × List EngineCall :=
  if st.sounds.any (hashMatches soundHash) then
    let newSounds := updateFirstMatch soundHash
      (fun a => { a with handle := a.handle ++ [engineHandle] }) st.sounds
    (engineHandle, { st with sounds := newSounds }, [.soloudPlay3d soundHash])
  else
    (0, st, [])

/-- `Player::stop` (player.cpp:149-160): resolves the handle; when not
found, returns with no effect; otherwise calls `soloud.stop(handle)` and
erases the handle from the owning asset's list via the single-iterator
erase-remove idiom. -/
def stop (h : Nat) (st : PlayerState) : PlayerState × List EngineCall :=
  match findByHandle h st.sounds with
  | none => (st, [])
  | some (i, _) =>
    let newSounds :=
      modifyIdx (fun a => { a with handle := eraseRemove h a.handle }) i st.sounds
    ({ st with sounds := newSounds }, [.soloudStop h])

/-- `Player::stopSound` (player.cpp:162-176): when no asset matches the
hash, no-op; otherwise calls `sound.stop()` on the engine and erases the
matching asset from `sounds` via the single-iterator erase-remove idiom. -/
def stopSound (soundHash : Nat) (st : PlayerState) : PlayerState × List EngineCall :=
  if st.sounds.any (hashMatches soundHash) then
    ({ st with sounds := eraseRemoveSounds soundHash st.sounds },
     [.soundStop soundHash])
  else
    (st, [])

/-- `Player::pauseSwitch` (player.cpp:110-119): resolves the handle; when
not found, no effect; otherwise toggles the engine pause state (pure
engine state, the registry is untouched). -/
def pauseSwitch (h : Nat) (st : PlayerState) : PlayerState × List EngineCall :=
  match findByHandle h st.sounds with
  | none => (st, [])
  | some (_, _) => (st, [.soloudSetPause h])

/-- `Player::getPause` (player.cpp:121-128): `enginePause` is the value
`soloud.getPause` would report for the resolved handle; returns `false`
when the handle does not resolve. -/
def getPause (enginePause : Bool) (h : Nat) (st : PlayerState) : Bool :=
  match findByHandle h st.sounds with
  | none => false
  | some _ => enginePause

/-- `Player::setLooping` (player.cpp:178-181): unconditional forward to the
engine, no resolver, no registry access. -/
def setLooping (h : Nat) (enable : Bool) (st : PlayerState) :
    PlayerState × List EngineCall :=
  (st, [.soloudSetLooping h enable])

/-- `Player::getLength` (player.cpp:241-249): `engineLen` is the duration
`sound.getLength()` would report for the found asset; returns `0.0` when
no asset matches the hash. -/
def getLength (engineLen : Rat) (soundHash : Nat) (st : PlayerState) : Rat :=
  if st.sounds.any (hashMatches soundHash) then engineLen else 0

/-- `Player::seek` (player.cpp:252-259): fails with `backendNotInited`
before init; otherwise forwards to `soloud.seek` and returns the engine's
result cast to `PlayerErrors`. -/
def seek (engineResult : Nat) (h : Nat) (st : PlayerState) :
    Nat × List EngineCall :=
  if !st.mInited then (backendNotInited, [])
  else (engineResult, [.soloudSeek h])

/-- `Player::getPosition` (player.cpp:262-266): pure forward of
`soloud.getStreamPosition`, no registry access and no init check. -/
def getPosition (enginePos : Rat) (h : Nat) (st : PlayerState) : Rat :=
  enginePos

/-- `Player::textToSpeech` (player.cpp:200-218).  `synthResult` is the
value `speech.setText` would return, `engineHandle` the handle
`soloud.play(speech)` would issue, `handleIn` the caller's value of the
by-reference output parameter `handle`, and `junkHash` the indeterminate
value of the never-assigned `soundHash` member of the freshly
default-constructed `ActiveSound`.  Returns (result code, final value of
`handle`, new state, engine calls).  The anonymous asset is pushed BEFORE
synthesis; on synthesis failure the code executes `sounds.emplace_back()`,
appending a null entry. -/
def textToSpeech (synthResult : Nat) (engineHandle : Nat) (junkHash : Nat)
    (text : String) (handleIn : Nat) (st : PlayerState) :
    Nat × Nat × PlayerState × List EngineCall :=
  if !st.mInited then (backendNotInited, handleIn, st, [])
  else
    let anon : ActiveSound :=
      { completeFileName := "", handle := [], soundHash := junkHash }
    if synthResult == noError then
      (noError, engineHandle,
       { st with sounds :=
           st.sounds ++ [some { anon with handle := [engineHandle] }] },
       [.speechSetText text, .soloudPlaySpeech])
    else
      (synthResult, handleIn,
       { st with sounds := st.sounds ++ [some anon, none] },
       [.speechSetText text])

end Player

open Player

/-! ### Lemmas about the search helpers -/

theorem idxOfHandle_eq_none_iff (h : Nat) (l : List Nat) :
    idxOfHandle h l = none ↔ h ∉ l := by
  induction l with
  | nil => simp [idxOfHandle]
  | cons x rest ih =>
    simp only [idxOfHandle]
    by_cases hx : x = h
    · subst hx
      simp
    · have hxb : (x == h) = false := by simpa using hx
      simp [hxb, Option.map_eq_none', ih, Ne.symm hx]

theorem idxOfHandle_get (h : Nat) (l : List Nat) (j : Nat)
    (hj : idxOfHandle h l = some j) : l.get? j = some h := by
  induction l generalizing j with
  | nil => simp [idxOfHandle] at hj
  | cons x rest ih =>
    simp only [idxOfHandle] at hj
    by_cases hx : x = h
    · subst hx
      simp at hj
      subst hj
      rfl
    · have hxb : (x == h) = false := by simpa using hx
      rw [hxb] at hj
      simp only [Bool.false_eq_true, if_false] at hj
      rcases Option.map_eq_some'.mp hj with ⟨j0, hj0, rfl⟩
      simpa using ih j0 hj0

theorem idxInEntry_eq_none_iff (h : Nat) (f : Option ActiveSound) :
    idxInEntry h f = none ↔ h ∉ optHandles f := by
  cases f with
  | none => simp [idxInEntry, optHandles]
  | some a => simp [idxInEntry, optHandles, idxOfHandle_eq_none_iff]

theorem idxInEntry_some (h : Nat) (f : Option ActiveSound) (j : Nat)
    (hj : idxInEntry h f = some j) :
    ∃ a, f = some a ∧ a.handle.get? j = some h := by
  cases f with
  | none => simp [idxInEntry] at hj
  | some a => exact ⟨a, rfl, idxOfHandle_get h a.handle j hj⟩

theorem mem_handlesOf (x : Nat) (l : List (Option ActiveSound)) :
    x ∈ handlesOf l ↔ ∃ a, some a ∈ l ∧ x ∈ a.handle := by
  induction l with
  | nil => simp [handlesOf]
  | cons f rest ih =>
    cases f with
    | none => simp [handlesOf, optHandles, ih]
    | some a =>
      simp only [handlesOf, optHandles, List.mem_append, ih, List.mem_cons]
      constructor
      · rintro (hx | ⟨b, hb, hxb⟩)
        · exact ⟨a, Or.inl rfl, hx⟩
        · exact ⟨b, Or.inr hb, hxb⟩
      · rintro ⟨b, hb | hb, hxb⟩
        · cases Option.some.inj hb
          exact Or.inl hxb
        · exact Or.inr ⟨b, hb, hxb⟩

theorem findByHandle_eq_none_iff (h : Nat) (l : List (Option ActiveSound)) :
    Player.findByHandle h l = none ↔ h ∉ handlesOf l := by
  induction l with
  | nil => simp [Player.findByHandle, handlesOf]
  | cons f rest ih =>
    simp only [Player.findByHandle, handlesOf, List.mem_append]
    cases hf : idxInEntry h f with
    | some j =>
      have hmem : h ∈ optHandles f := by
        by_contra hn
        rw [← idxInEntry_eq_none_iff] at hn
        rw [hn] at hf
        exact Option.noConfusion hf
      simp [hmem]
    | none =>
      have hnot : h ∉ optHandles f := (idxInEntry_eq_none_iff h f).mp hf
      simp [Option.map_eq_none', ih, hnot]

theorem findByHandle_some (h : Nat) (l : List (Option ActiveSound))
    (i j : Nat) (hfind : Player.findByHandle h l = some (i, j)) :
    ∃ a, l.get? i = some (some a) ∧ a.handle.get? j = some h := by
  induction l generalizing i j with
  | nil => simp [Player.findByHandle] at hfind
  | cons f rest ih =>
    simp only [Player.findByHandle] at hfind
    cases hf : idxInEntry h f with
    | some j0 =>
      rw [hf] at hfind
      simp only [Option.some.injEq, Prod.mk.injEq] at hfind
      obtain ⟨rfl, rfl⟩ := hfind
      rcases idxInEntry_some h f j0 hf with ⟨a, rfl, hget⟩
      exact ⟨a, rfl, hget⟩
    | none =>
      rw [hf] at hfind
      rcases Option.map_eq_some'.mp hfind with ⟨⟨i0, j0⟩, hp, hpe⟩
      simp only [Prod.mk.injEq] at hpe
      obtain ⟨rfl, rfl⟩ := hpe
      rcases ih i0 j0 hp with ⟨a, hgi, hgj⟩
      exact ⟨a, by simpa using hgi, hgj⟩

theorem findByHandle_isSome (h : Nat) (l : List (Option ActiveSound))
    (hmem : h ∈ handlesOf l) : ∃ p, Player.findByHandle h l = some p := by
  cases hfind : Player.findByHandle h l with
  | none => exact absurd ((findByHandle_eq_none_iff h l).mp hfind) (by simpa using hmem)
  | some p => exact ⟨p, rfl⟩

/-! ### Lemmas about the list-surgery helpers -/

theorem modifyIdx_length (g : ActiveSound → ActiveSound) (i : Nat)
    (l : List (Option ActiveSound)) : (modifyIdx g i l).length = l.length := by
  induction l generalizing i with
  | nil => cases i <;> rfl
  | cons f rest ih =>
    cases i with
    | zero => simp [modifyIdx]
    | succ n => simp [modifyIdx, ih]

theorem modifyIdx_get_self (g : ActiveSound → ActiveSound) (i : Nat)
    (l : List (Option ActiveSound)) (f : Option ActiveSound)
    (hf : l.get? i = some f) :
    (modifyIdx g i l).get? i = some (f.map g) := by
  induction l generalizing i with
  | nil => simp at hf
  | cons f0 rest ih =>
    cases i with
    | zero =>
      simp only [List.get?_cons_zero, Option.some.injEq] at hf
      subst hf
      rfl
    | succ n =>
      simp only [List.get?_cons_succ] at hf
      simpa [modifyIdx] using ih n hf

theorem modifyIdx_get_ne (g : ActiveSound → ActiveSound) (i k : Nat)
    (l : List (Option ActiveSound)) (hk : k ≠ i) :
    (modifyIdx g i l).get? k = l.get? k := by
  induction l generalizing i k with
  | nil => cases i <;> rfl
  | cons f0 rest ih =>
    cases i with
    | zero =>
      cases k with
      | zero => exact absurd rfl hk
      | succ m => rfl
    | succ n =>
      cases k with
      | zero => rfl
      | succ m =>
        simpa [modifyIdx] using ih n m (fun he => hk (by rw [he]))

theorem updateFirstMatch_spec (H : Nat) (g : ActiveSound → ActiveSound)
    (l : List (Option ActiveSound)) (hAny : l.any (hashMatches H) = true) :
    ∃ i a, l.get? i = some (some a) ∧ a.soundHash = H ∧
      (updateFirstMatch H g l).get? i = some (some (g a)) ∧
      (∀ k, k ≠ i → (updateFirstMatch H g l).get? k = l.get? k) ∧
      (updateFirstMatch H g l).length = l.length := by
  induction l with
  | nil => simp at hAny
  | cons f rest ih =>
    by_cases hf : hashMatches H f = true
    · cases f with
      | none => simp [hashMatches] at hf
      | some a =>
        have ha : a.soundHash = H := by simpa [hashMatches] using hf
        refine ⟨0, a, rfl, ha, ?_, ?_, ?_⟩
        · simp [updateFirstMatch, hf]
        · intro k hk
          cases k with
          | zero => exact absurd rfl hk
          | succ m => simp [updateFirstMatch, hf]
        · simp [updateFirstMatch, hf]
    · have hrest : rest.any (hashMatches H) = true := by
        rcases List.any_eq_true.mp hAny with ⟨f0, hf0, hm⟩
        rcases List.mem_cons.mp hf0 with rfl | hf0
        · exact absurd hm hf
        · exact List.any_eq_true.mpr ⟨f0, hf0, hm⟩
      rcases ih hrest with ⟨i, a, hget, ha, hgetU, hother, hlen⟩
      refine ⟨i + 1, a, by simpa using hget, ha, ?_, ?_, ?_⟩
      · simpa [updateFirstMatch, hf] using hgetU
      · intro k hk
        cases k with
        | zero => simp [updateFirstMatch, hf]
        | succ m =>
          have := hother m (fun he => hk (by rw [he]))
          simpa [updateFirstMatch, hf] using this
      · simp [updateFirstMatch, hf, hlen]

/-! ### Lemmas about the erase-remove idiom -/

theorem length_filter_bne (h : Nat) (l : List Nat) :
    (l.filter (fun x => !(x == h))).length + l.count h = l.length := by
  induction l with
  | nil => rfl
  | cons x rest ih =>
    by_cases hx : x = h
    · subst hx
      simp [List.filter_cons, List.count_cons]
      omega
    · have hxb : (x == h) = false := by simpa using hx
      simp [List.filter_cons, List.count_cons, hxb]
      omega

theorem eraseRemove_eq_filter (h : Nat) (l : List Nat)
    (hc : l.count h = 1) :
    eraseRemove h l = l.filter (fun x => !(x == h)) := by
  have hlen := length_filter_bne h l
  show l.filter (fun x => !(x == h)) ++
    l.drop ((l.filter (fun x => !(x == h))).length + 1) =
    l.filter (fun x => !(x == h))
  rw [List.drop_eq_nil_of_le (by omega), List.append_nil]

theorem length_filter_not_hashMatches (H : Nat) (l : List (Option ActiveSound)) :
    (l.filter (fun f => !(hashMatches H f))).length + l.countP (hashMatches H)
      = l.length := by
  induction l with
  | nil => rfl
  | cons f rest ih =>
    by_cases hf : hashMatches H f = true
    · simp [List.filter_cons, List.countP_cons, hf]
      omega
    · have hfb : hashMatches H f = false := by simpa using hf
      simp [List.filter_cons, List.countP_cons, hfb]
      omega

theorem eraseRemoveSounds_eq_filter (H : Nat) (l : List (Option ActiveSound))
    (hc : l.countP (hashMatches H) = 1) :
    eraseRemoveSounds H l = l.filter (fun f => !(hashMatches H f)) := by
  have hlen := length_filter_not_hashMatches H l
  show l.filter (fun f => !(hashMatches H f)) ++
    l.drop ((l.filter (fun f => !(hashMatches H f))).length + 1) =
    l.filter (fun f => !(hashMatches H f))
  rw [List.drop_eq_nil_of_le (by omega), List.append_nil]

/-! ### Nodup and disjointness lemmas over the handle pool -/

theorem nodup_handle_of_mem (a : ActiveSound) :
    ∀ l : List (Option ActiveSound),
      (handlesOf l).Nodup → some a ∈ l → a.handle.Nodup := by
  intro l
  induction l with
  | nil => intro _ hm; simp at hm
  | cons f rest ih =>
    intro hd hm
    simp only [handlesOf] at hd
    rcases List.mem_cons.mp hm with hfa | hmem
    · rw [← hfa] at hd
      exact hd.of_append_left
    · exact ih hd.of_append_right hmem

theorem handlesOf_filter_subset (p : Option ActiveSound → Bool) :
    ∀ l : List (Option ActiveSound), ∀ x,
      x ∈ handlesOf (l.filter p) → x ∈ handlesOf l := by
  intro l
  induction l with
  | nil => intro x hx; simpa using hx
  | cons f rest ih =>
    intro x hx
    rw [List.filter_cons] at hx
    by_cases hp : p f = true
    · rw [if_pos hp] at hx
      simp only [handlesOf, List.mem_append] at hx ⊢
      rcases hx with h1 | h2
      · exact Or.inl h1
      · exact Or.inr (ih x h2)
    · rw [if_neg hp] at hx
      simp only [handlesOf, List.mem_append]
      exact Or.inr (ih x hx)

theorem not_mem_handlesOf_filter (H : Nat) (a : ActiveSound) (x : Nat)
    (hMatch : hashMatches H (some a) = true) (hx : x ∈ a.handle) :
    ∀ l : List (Option ActiveSound), (handlesOf l).Nodup → some a ∈ l →
      x ∉ handlesOf (l.filter (fun f => !(hashMatches H f))) := by
  intro l
  induction l with
  | nil => intro _ hm; simp at hm
  | cons f rest ih =>
    intro hd hm hcontra
    simp only [handlesOf] at hd
    rw [List.nodup_append] at hd
    obtain ⟨hd1, hd2, hdisj⟩ := hd
    rcases List.mem_cons.mp hm with hfa | hmem
    · rw [List.filter_cons] at hcontra
      have hdrop : (!(hashMatches H f)) = false := by
        rw [← hfa]
        simp [hMatch]
      rw [if_neg (by simp [hdrop])] at hcontra
      have hxrest : x ∈ handlesOf rest :=
        handlesOf_filter_subset _ rest x hcontra
      have hxf : x ∈ optHandles f := by
        rw [← hfa]
        simpa [optHandles] using hx
      exact hdisj hxf hxrest
    · rw [List.filter_cons] at hcontra
      by_cases hp : (!(hashMatches H f)) = true
      · rw [if_pos hp] at hcontra
        simp only [handlesOf, List.mem_append] at hcontra
        rcases hcontra with h1 | h2
        · have hxrest : x ∈ handlesOf rest :=
            (mem_handlesOf x rest).mpr ⟨a, hmem, hx⟩
          exact hdisj h1 hxrest
        · exact ih hd2 hmem h2
      · rw [if_neg hp] at hcontra
        exact ih hd2 hmem hcontra



/-! ### Branch lemmas for loadFile -/

theorem loadFile_not_inited (hashStr : String → Nat) (dec : Nat) (path : String)
    (hashIn : Nat) (st : PlayerState) (h : st.mInited = false) :
    Player.loadFile hashStr dec path hashIn st = (backendNotInited, hashIn, st, []) := by
  unfold Player.loadFile
  rw [h]
  simp only [Bool.not_false, if_true]

theorem loadFile_already (hashStr : String → Nat) (dec : Nat) (path : String)
    (hashIn : Nat) (st : PlayerState)
    (hInit : st.mInited = true)
    (hDup : st.sounds.any (hashMatches (hashStr path % 2 ^ 32)) = true) :
    Player.loadFile hashStr dec path hashIn st = (fileAlreadyLoaded, 0, st, []) := by
  unfold Player.loadFile
  rw [hInit]
  simp only [Bool.not_true, Bool.false_eq_true, if_false, hDup, if_true]

theorem loadFile_fresh_success (hashStr : String → Nat) (path : String)
    (hashIn : Nat) (st : PlayerState)
    (hInit : st.mInited = true)
    (hNew : st.sounds.any (hashMatches (hashStr path % 2 ^ 32)) = false) :
    Player.loadFile hashStr noError path hashIn st =
      (noError, hashStr path % 2 ^ 32,
       { st with sounds := st.sounds ++
          [some { completeFileName := path, handle := [],
                  soundHash := hashStr path % 2 ^ 32 }] },
       [.wavLoad path]) := by
  unfold Player.loadFile
  rw [hInit]
  simp only [Bool.not_true, Bool.false_eq_true, if_false, hNew, bne_self_eq_false]

theorem loadFile_fresh_failure (hashStr : String → Nat) (dec : Nat) (path : String)
    (hashIn : Nat) (st : PlayerState)
    (hInit : st.mInited = true)
    (hNew : st.sounds.any (hashMatches (hashStr path % 2 ^ 32)) = false)
    (hD : dec ≠ noError) :
    Player.loadFile hashStr dec path hashIn st =
      (dec, hashStr path % 2 ^ 32,
       { st with sounds := st.sounds ++
          [some { completeFileName := path, handle := [],
                  soundHash := hashStr path % 2 ^ 32 }, none] },
       [.wavLoad path]) := by
  have hb : (dec != noError) = true := by simpa using hD
  unfold Player.loadFile
  rw [hInit]
  simp only [Bool.not_true, Bool.false_eq_true, if_false, hNew, hb, if_true]

/-! ### Claim theorems -/

/-- C1: the spec claims that when the decode collaborator fails, `loadFile`
returns the error untouched AND leaves the registry exactly as before (no
Asset inserted, `count()` unchanged).  Evaluating the source at a failing
input shows the error is indeed returned unchanged, but the registry has
grown by two entries: the new Asset (with the path's identity already
registered) plus a null entry appended by `sounds.emplace_back()` —
`getSoundsCount` goes from 0 to 2.  The `emplace_back()` is a slip for
`pop_back()`: it appends a null `unique_ptr` whose later dereference by
every `find_if` lambda is undefined behavior. -/
theorem loadFile_decodeFailure_growsRegistry :
    Player.loadFile (fun _ => 42) fileLoadFailed "a.wav" 0
        { sounds := [], mInited := true } =
      (fileLoadFailed, 42,
       { sounds := [some { completeFileName := "a.wav", handle := [],
                           soundHash := 42 }, none],
         mInited := true },
       [.wavLoad "a.wav"]) ∧
    Player.getSoundsCount { sounds := [], mInited := true } = 0 ∧
    Player.getSoundsCount
      (Player.loadFile (fun _ => 42) fileLoadFailed "a.wav" 0
        { sounds := [], mInited := true }).2.2.1 = 2 ∧
    (Player.loadFile (fun _ => 42) fileLoadFailed "a.wav" 0
        { sounds := [], mInited := true }).2.2.1.sounds.any (hashMatches 42)
      = true := by
  refine ⟨?_, rfl, rfl, rfl⟩
  rfl

/-- C9: when `loadFile` is called for a path whose identity is already
registered, the by-reference output parameter `hash` has been set to 0
(line 87) and is not updated to the existing Asset's identity; the result
is `fileAlreadyLoaded` and the registry is untouched. -/
theorem loadFile_alreadyLoaded_zero_hash
    (hashStr : String → Nat) (decodeResult : Nat) (path : String)
    (hashIn : Nat) (st : PlayerState)
    (hInit : st.mInited = true)
    (hDup : st.sounds.any (hashMatches (hashStr path % 2 ^ 32)) = true) :
    Player.loadFile hashStr decodeResult path hashIn st =
      (fileAlreadyLoaded, 0, st, []) :=
  loadFile_already hashStr decodeResult path hashIn st hInit hDup

theorem loadFile_alreadyLoaded_zero_hash_witness :
    Player.loadFile (fun _ => 5) 0 "a.wav" 77
        { sounds := [some { completeFileName := "a.wav", handle := [],
                            soundHash := 5 }],
          mInited := true } =
      (fileAlreadyLoaded, 0,
       { sounds := [some { completeFileName := "a.wav", handle := [],
                           soundHash := 5 }],
         mInited := true }, []) :=
  loadFile_alreadyLoaded_zero_hash (fun _ => 5) 0 "a.wav" 77
    { sounds := [some { completeFileName := "a.wav", handle := [],
                        soundHash := 5 }],
      mInited := true } rfl rfl

/-- C2: loading the same path twice (first load succeeding) leaves exactly
one registered Asset carrying that path's identity: the second call
returns `fileAlreadyLoaded`, the registry state is completely unchanged
by it (so the existing Asset is not mutated and no second Asset exists),
and `getSoundsCount` does not increase. -/
theorem loadFile_dedup
    (hashStr : String → Nat) (path : String) (hashIn1 hashIn2 dec2 : Nat)
    (st0 : PlayerState)
    (hInit : st0.mInited = true)
    (hNew : st0.sounds.any (hashMatches (hashStr path % 2 ^ 32)) = false) :
    (Player.loadFile hashStr noError path hashIn1 st0).1 = noError ∧
    ((Player.loadFile hashStr noError path hashIn1 st0).2.2.1.sounds.countP
        (hashMatches (hashStr path % 2 ^ 32))) = 1 ∧
    Player.loadFile hashStr dec2 path hashIn2
        (Player.loadFile hashStr noError path hashIn1 st0).2.2.1 =
      (fileAlreadyLoaded, 0,
       (Player.loadFile hashStr noError path hashIn1 st0).2.2.1, []) ∧
    Player.getSoundsCount
        (Player.loadFile hashStr dec2 path hashIn2
          (Player.loadFile hashStr noError path hashIn1 st0).2.2.1).2.2.1 =
      Player.getSoundsCount
        (Player.loadFile hashStr noError path hashIn1 st0).2.2.1 := by
  have hres := loadFile_fresh_success hashStr path hashIn1 st0 hInit hNew
  have hcount0 : st0.sounds.countP (hashMatches (hashStr path % 2 ^ 32)) = 0 := by
    rw [List.countP_eq_zero]
    intro f hf
    have := List.any_eq_false.mp hNew f hf
    simpa using this
  have hDup : (st0.sounds ++
      [some ({ completeFileName := path, handle := [],
               soundHash := hashStr path % 2 ^ 32 } : ActiveSound)]).any
        (hashMatches (hashStr path % 2 ^ 32)) = true := by
    rw [List.any_append]
    simp [hashMatches]
  have hres2 := loadFile_already hashStr dec2 path hashIn2
    (Player.loadFile hashStr noError path hashIn1 st0).2.2.1
    (by rw [hres]; exact hInit) (by rw [hres]; exact hDup)
  refine ⟨by rw [hres], ?_, hres2, by rw [hres2]⟩
  rw [hres]
  simp only [List.countP_append, hcount0]
  simp [hashMatches]

theorem loadFile_dedup_witness :
    Player.loadFile (fun _ => 5) 0 "a.wav" 3
        (Player.loadFile (fun _ => 5) noError "a.wav" 0
          { sounds := [], mInited := true }).2.2.1 =
      (fileAlreadyLoaded, 0,
       (Player.loadFile (fun _ => 5) noError "a.wav" 0
         { sounds := [], mInited := true }).2.2.1, []) :=
  (loadFile_dedup (fun _ => 5) "a.wav" 0 3 0
    { sounds := [], mInited := true } rfl rfl).2.2.1

/-- C5 counterexample: the claim says every PlaybackController operation
fails with `backendNotInited` when invoked before the engine has been
started.  But `play` performs no init check at all: on an uninitialized
player holding a registered asset it proceeds normally — it calls the
engine, appends the returned handle to the asset's list and returns that
handle instead of failing. -/
theorem play_uninited_proceeds :
    Player.play 7 5
        { sounds := [some { completeFileName := "a.wav", handle := [],
                            soundHash := 5 }],
          mInited := false } =
      (7,
       { sounds := [some { completeFileName := "a.wav", handle := [7],
                           soundHash := 5 }],
         mInited := false },
       [.soloudPlay 5]) := rfl

/-- C5 amended: only `loadFile`, `textToSpeech` and `seek` check `mInited`
and fail with `backendNotInited` when the engine has not been started;
`play`, `stop`, `stopSound` (stopAsset), `pauseSwitch` (pauseToggle),
`getPause`, `setLooping`, `getPosition` and `getLength` perform no
initialization check — their results, registry effects and engine calls
are identical for every value of the `mInited` flag. -/
theorem mInited_check_coverage
    (st : PlayerState) (hashStr : String → Nat)
    (decodeResult synthResult engineResult engineHandle junkHash : Nat)
    (path text : String) (hashIn handleIn : Nat) (H h : Nat)
    (enablePar enginePause : Bool) (engineLen enginePos : Rat) (b : Bool) :
    Player.loadFile hashStr decodeResult path hashIn { st with mInited := false } =
      (backendNotInited, hashIn, { st with mInited := false }, []) ∧
    Player.textToSpeech synthResult engineHandle junkHash text handleIn
        { st with mInited := false } =
      (backendNotInited, handleIn, { st with mInited := false }, []) ∧
    Player.seek engineResult h { st with mInited := false } =
      (backendNotInited, []) ∧
    (Player.play engineHandle H { st with mInited := b }).1 =
      (Player.play engineHandle H st).1 ∧
    (Player.play engineHandle H { st with mInited := b }).2.1.sounds =
      (Player.play engineHandle H st).2.1.sounds ∧
    (Player.play engineHandle H { st with mInited := b }).2.2 =
      (Player.play engineHandle H st).2.2 ∧
    (Player.stop h { st with mInited := b }).1.sounds =
      (Player.stop h st).1.sounds ∧
    (Player.stop h { st with mInited := b }).2 = (Player.stop h st).2 ∧
    (Player.stopSound H { st with mInited := b }).1.sounds =
      (Player.stopSound H st).1.sounds ∧
    (Player.stopSound H { st with mInited := b }).2 = (Player.stopSound H st).2 ∧
    (Player.pauseSwitch h { st with mInited := b }).1.sounds =
      (Player.pauseSwitch h st).1.sounds ∧
    (Player.pauseSwitch h { st with mInited := b }).2 =
      (Player.pauseSwitch h st).2 ∧
    Player.getPause enginePause h { st with mInited := b } =
      Player.getPause enginePause h st ∧
    (Player.setLooping h enablePar { st with mInited := b }).2 =
      (Player.setLooping h enablePar st).2 ∧
    Player.getPosition enginePos h { st with mInited := b } =
      Player.getPosition enginePos h st ∧
    Player.getLength engineLen H { st with mInited := b } =
      Player.getLength engineLen H st := by
  refine ⟨rfl, rfl, rfl, ?_, ?_, ?_, ?_, ?_, ?_, ?_, ?_, ?_, ?_, rfl, rfl, ?_⟩
  all_goals
    first
    | (by_cases hc : st.sounds.any (hashMatches H) = true <;>
        simp [Player.play, Player.stopSound, Player.getLength, hc])
    | (rcases hf : Player.findByHandle h st.sounds with _ | ⟨i, j⟩ <;>
        simp [Player.stop, Player.pauseSwitch, Player.getPause, hf])

/-- C6: miss safety.  On a well-formed registry, `play` on an identity with
no registered Asset returns the sentinel 0, leaves the state unchanged and
performs no engine call; `stop` on a handle listed by no Asset is a no-op
with no engine call; `getLength` on an unknown identity returns 0.0. -/
theorem miss_safety (st : PlayerState) (H h engineHandle : Nat) (engineLen : Rat)
    (hWF : WFSounds st.sounds)
    (hNoAsset : st.sounds.any (hashMatches H) = false)
    (hNoHandle : h ∉ handlesOf st.sounds) :
    Player.play engineHandle H st = (0, st, []) ∧
    Player.stop h st = (st, []) ∧
    Player.getLength engineLen H st = 0 := by
  refine ⟨?_, ?_, ?_⟩
  · simp only [Player.play, hNoAsset, Bool.false_eq_true, if_false]
  · have hf : Player.findByHandle h st.sounds = none :=
      (findByHandle_eq_none_iff h st.sounds).mpr hNoHandle
    simp only [Player.stop, hf]
  · simp only [Player.getLength, hNoAsset, Bool.false_eq_true, if_false]

theorem miss_safety_witness :
    Player.play 9 1 { sounds := [], mInited := true } =
      (0, { sounds := [], mInited := true }, []) ∧
    Player.stop 1 { sounds := [], mInited := true } =
      ({ sounds := [], mInited := true }, []) ∧
    Player.getLength 2 1 { sounds := [], mInited := true } = 0 :=
  miss_safety { sounds := [], mInited := true } 1 1 9 2
    (by decide) rfl (by decide)

/-- C7 counterexample: the claim says that on synthesis failure the
registry grows by exactly one entry.  Evaluating the source at a failing
synthesis from an empty registry shows it grows by TWO entries: the
anonymous Asset (empty live list) plus a null entry appended by
`sounds.emplace_back()`. -/
theorem textToSpeech_failure_grows_by_two :
    Player.textToSpeech 3 0 0 "hello" 0 { sounds := [], mInited := true } =
      (3, 0,
       { sounds := [some { completeFileName := "", handle := [],
                           soundHash := 0 }, none],
         mInited := true },
       [.speechSetText "hello"]) ∧
    Player.getSoundsCount
      (Player.textToSpeech 3 0 0 "hello" 0
        { sounds := [], mInited := true }).2.2.1 = 2 := ⟨rfl, rfl⟩

/-- C7 amended: on synthesis success exactly one anonymous Asset (empty
source path, no dedup) is appended, its live list is exactly
`[engineHandle]` and that handle is returned; on synthesis failure the
synthesis error is returned unchanged, the anonymous Asset remains
registered with an empty live list (no rollback), and the registry grows
by exactly TWO entries — the Asset plus a null placeholder entry. -/
theorem textToSpeech_behavior
    (st : PlayerState) (synthResult engineHandle junkHash handleIn : Nat)
    (text : String) (hInit : st.mInited = true) :
    (synthResult = noError →
      Player.textToSpeech synthResult engineHandle junkHash text handleIn st =
        (noError, engineHandle,
         { st with sounds := st.sounds ++
            [some { completeFileName := "", handle := [engineHandle],
                    soundHash := junkHash }] },
         [.speechSetText text, .soloudPlaySpeech]) ∧
      (Player.textToSpeech synthResult engineHandle junkHash text handleIn
          st).2.2.1.sounds.length = st.sounds.length + 1) ∧
    (synthResult ≠ noError →
      Player.textToSpeech synthResult engineHandle junkHash text handleIn st =
        (synthResult, handleIn,
         { st with sounds := st.sounds ++
            [some { completeFileName := "", handle := [],
                    soundHash := junkHash }, none] },
         [.speechSetText text]) ∧
      (Player.textToSpeech synthResult engineHandle junkHash text handleIn
          st).2.2.1.sounds.length = st.sounds.length + 2) := by
  constructor
  · intro hs
    subst hs
    have heq : Player.textToSpeech noError engineHandle junkHash text handleIn st =
        (noError, engineHandle,
         { st with sounds := st.sounds ++
            [some { completeFileName := "", handle := [engineHandle],
                    soundHash := junkHash }] },
         [.speechSetText text, .soloudPlaySpeech]) := by
      unfold Player.textToSpeech
      rw [hInit]
      simp only [Bool.not_true, Bool.false_eq_true, if_false, beq_self_eq_true,
        if_true]
    exact ⟨heq, by rw [heq]; simp⟩
  · intro hs
    have hb : (synthResult == noError) = false := by simpa using hs
    have heq : Player.textToSpeech synthResult engineHandle junkHash text handleIn st =
        (synthResult, handleIn,
         { st with sounds := st.sounds ++
            [some { completeFileName := "", handle := [],
                    soundHash := junkHash }, none] },
         [.speechSetText text]) := by
      unfold Player.textToSpeech
      rw [hInit]
      simp only [Bool.not_true, Bool.false_eq_true, if_false, hb]
    exact ⟨heq, by rw [heq]; simp⟩

theorem textToSpeech_behavior_witness :
    Player.textToSpeech 3 0 7 "hi" 4 { sounds := [], mInited := true } =
      (3, 4,
       { sounds := [some { completeFileName := "", handle := [],
                           soundHash := 7 }, none],
         mInited := true },
       [.speechSetText "hi"]) :=
  (((textToSpeech_behavior { sounds := [], mInited := true } 3 0 7 4 "hi"
      rfl).2) (by decide)).1

/-- C10: for a registered identity, `play` and `play3d` append to the first
matching Asset's live list exactly the handle value issued by the engine,
with no validation, and return that value — in particular an engine result
of 0 is appended and returned like any other value, so a returned 0 does
not by itself imply the registry was left unchanged. -/
theorem play_appends_engine_handle
    (st : PlayerState) (H engineHandle : Nat)
    (hWF : WFSounds st.sounds)
    (hAsset : st.sounds.any (hashMatches H) = true) :
    ∃ i a, st.sounds.get? i = some (some a) ∧ a.soundHash = H ∧
      (Player.play engineHandle H st).1 = engineHandle ∧
      (Player.play engineHandle H st).2.1.sounds.get? i =
        some (some { a with handle := a.handle ++ [engineHandle] }) ∧
      (∀ k, k ≠ i →
        (Player.play engineHandle H st).2.1.sounds.get? k = st.sounds.get? k) ∧
      (Player.play engineHandle H st).2.1.sounds.length = st.sounds.length ∧
      (Player.play engineHandle H st).2.2 = [.soloudPlay H] ∧
      Player.play3d engineHandle H st =
        ((Player.play engineHandle H st).1,
         (Player.play engineHandle H st).2.1, [.soloudPlay3d H]) := by
  rcases updateFirstMatch_spec H
      (fun a => { a with handle := a.handle ++ [engineHandle] }) st.sounds hAsset with
    ⟨i, a, hget, ha, hgetU, hother, hlen⟩
  refine ⟨i, a, hget, ha, ?_, ?_, ?_, ?_, ?_, ?_⟩
  · simp only [Player.play, hAsset, if_true]
  · simp only [Player.play, hAsset, if_true]
    exact hgetU
  · intro k hk
    simp only [Player.play, hAsset, if_true]
    exact hother k hk
  · simp only [Player.play, hAsset, if_true]
    exact hlen
  · simp only [Player.play, hAsset, if_true]
  · simp only [Player.play, Player.play3d, hAsset, if_true]

/-- On a Nodup list, keeping the non-matching elements is exactly `erase`. -/
theorem filter_bne_eq_erase (h : Nat) (l : List Nat) (hd : l.Nodup) :
    l.filter (fun x => !(x == h)) = l.erase h := by
  rw [hd.erase_eq_filter]
  apply List.filter_congr
  intro x _
  rfl

/-- C8: resolution correctness of `findByHandle` on a well-formed registry:
it returns `none` exactly when no registered Asset's list contains the
handle, and any returned pair (assetIndex, slotIndex) points at an Asset
whose list holds the handle at exactly that slot. -/
theorem findByHandle_correct (st : PlayerState) (h : Nat)
    (hWF : WFSounds st.sounds) :
    (Player.findByHandle h st.sounds = none ↔ h ∉ handlesOf st.sounds) ∧
    (∀ i j, Player.findByHandle h st.sounds = some (i, j) →
      ∃ a, st.sounds.get? i = some (some a) ∧ a.handle.get? j = some h) ∧
    ((∃ p, Player.findByHandle h st.sounds = some p) ↔ h ∈ handlesOf st.sounds) := by
  refine ⟨findByHandle_eq_none_iff h st.sounds,
          fun i j hf => findByHandle_some h st.sounds i j hf, ?_, ?_⟩
  · rintro ⟨⟨i, j⟩, hp⟩
    rcases findByHandle_some h st.sounds i j hp with ⟨a, hgi, hgj⟩
    exact (mem_handlesOf h st.sounds).mpr
      ⟨a, List.get?_mem hgi, List.get?_mem hgj⟩
  · exact fun hm => findByHandle_isSome h st.sounds hm

theorem findByHandle_correct_witness :
    (Player.findByHandle 6
        [some ({ completeFileName := "x.wav", handle := [4, 6],
                 soundHash := 1 } : ActiveSound)] = none ↔
      (6 : Nat) ∉ handlesOf
        [some ({ completeFileName := "x.wav", handle := [4, 6],
                 soundHash := 1 } : ActiveSound)]) ∧
    (∀ i j, Player.findByHandle 6
        [some ({ completeFileName := "x.wav", handle := [4, 6],
                 soundHash := 1 } : ActiveSound)] = some (i, j) →
      ∃ a, [some ({ completeFileName := "x.wav", handle := [4, 6],
                    soundHash := 1 } : ActiveSound)].get? i = some (some a) ∧
        a.handle.get? j = some 6) ∧
    ((∃ p, Player.findByHandle 6
        [some ({ completeFileName := "x.wav", handle := [4, 6],
                 soundHash := 1 } : ActiveSound)] = some p) ↔
      (6 : Nat) ∈ handlesOf
        [some ({ completeFileName := "x.wav", handle := [4, 6],
                 soundHash := 1 } : ActiveSound)]) :=
  findByHandle_correct
    { sounds := [some { completeFileName := "x.wav", handle := [4, 6],
                        soundHash := 1 }],
      mInited := true } 6 (by decide)

/-- C4: `stopSound` on a registered identity removes the Asset entirely
(count decreases by one, the identity no longer matches any entry, its
handles are no longer resolvable, `getLength` on it returns 0.0 for any
engine-reported length) after stopping the sound on the engine; on an
identity with no registered Asset it is a no-op with no engine call. -/
theorem stopSound_unloads_asset (st : PlayerState) (I : Nat)
    (hWF : WFSounds st.sounds)
    (hNd : (handlesOf st.sounds).Nodup) :
    (st.sounds.countP (hashMatches I) = 1 →
      Player.getSoundsCount (Player.stopSound I st).1 + 1 =
        Player.getSoundsCount st ∧
      (Player.stopSound I st).1.sounds.any (hashMatches I) = false ∧
      (∀ engineLen : Rat,
        Player.getLength engineLen I (Player.stopSound I st).1 = 0) ∧
      (∀ a, some a ∈ st.sounds → a.soundHash = I →
        ∀ x ∈ a.handle,
          Player.findByHandle x (Player.stopSound I st).1.sounds = none) ∧
      (Player.stopSound I st).2 = [.soundStop I]) ∧
    (st.sounds.any (hashMatches I) = false →
      Player.stopSound I st = (st, [])) := by
  constructor
  · intro hc
    have hAny : st.sounds.any (hashMatches I) = true := by
      have hpos : 0 < st.sounds.countP (hashMatches I) := by omega
      rcases List.countP_pos_iff.mp hpos with ⟨f, hf, hm⟩
      exact List.any_eq_true.mpr ⟨f, hf, hm⟩
    have heq : Player.stopSound I st =
        ({ st with sounds := eraseRemoveSounds I st.sounds }, [.soundStop I]) := by
      simp only [Player.stopSound, hAny, if_true]
    have hfil := eraseRemoveSounds_eq_filter I st.sounds hc
    have hAnyAfter :
        (st.sounds.filter (fun f => !(hashMatches I f))).any (hashMatches I)
          = false := by
      rw [List.any_eq_false]
      intro f hf
      have := (List.mem_filter.mp hf).2
      simpa using this
    refine ⟨?_, ?_, ?_, ?_, ?_⟩
    · rw [heq]
      have hlen := length_filter_not_hashMatches I st.sounds
      simp only [Player.getSoundsCount, hfil]
      omega
    · rw [heq]
      simp [hfil, hAnyAfter]
    · intro engineLen
      rw [heq]
      simp only [Player.getLength, hfil, hAnyAfter, Bool.false_eq_true, if_false]
    · intro a ha haI x hx
      rw [heq]
      simp only [hfil]
      refine (findByHandle_eq_none_iff x _).mpr ?_
      exact not_mem_handlesOf_filter I a x (by simp [hashMatches, haI]) hx
        st.sounds hNd ha
    · rw [heq]
  · intro hNone
    simp only [Player.stopSound, hNone, Bool.false_eq_true, if_false]

theorem stopSound_unloads_asset_witness :
    Player.getSoundsCount
        (Player.stopSound 5
          { sounds := [some { completeFileName := "a.wav", handle := [4],
                              soundHash := 5 }],
            mInited := true }).1 + 1 =
      Player.getSoundsCount
        { sounds := [some { completeFileName := "a.wav", handle := [4],
                            soundHash := 5 }],
          mInited := true } ∧
    Player.getLength 9 5
        (Player.stopSound 5
          { sounds := [some { completeFileName := "a.wav", handle := [4],
                              soundHash := 5 }],
            mInited := true }).1 = 0 ∧
    Player.findByHandle 4
        (Player.stopSound 5
          { sounds := [some { completeFileName := "a.wav", handle := [4],
                              soundHash := 5 }],
            mInited := true }).1.sounds = none := by
  have hmain := (stopSound_unloads_asset
    { sounds := [some { completeFileName := "a.wav", handle := [4],
                        soundHash := 5 }],
      mInited := true } 5 (by decide) (by decide)).1 (by decide)
  exact ⟨hmain.1, hmain.2.2.1 9,
    hmain.2.2.2.1 { completeFileName := "a.wav", handle := [4], soundHash := 5 }
      (by decide) rfl 4 (by decide)⟩

/-- C3: on a well-formed registry with globally distinct handles, `stop(h)`
for a listed handle removes exactly the entry equal to `h` from the owning
Asset's list (the list shrinks by one and the remaining entries are the
`erase`, i.e. keep their relative order), every other entry of the
registry is untouched, the Asset itself stays registered — `getSoundsCount`
is unchanged — and every other listed handle is still resolvable. -/
theorem stop_removes_exactly_one (st : PlayerState) (h : Nat)
    (hWF : WFSounds st.sounds)
    (hNd : (handlesOf st.sounds).Nodup)
    (hMem : h ∈ handlesOf st.sounds) :
    ∃ i j a, Player.findByHandle h st.sounds = some (i, j) ∧
      st.sounds.get? i = some (some a) ∧ h ∈ a.handle ∧
      (Player.stop h st).1.sounds.get? i =
        some (some { a with handle := a.handle.erase h }) ∧
      (a.handle.erase h).length + 1 = a.handle.length ∧
      (∀ k, k ≠ i → (Player.stop h st).1.sounds.get? k = st.sounds.get? k) ∧
      Player.getSoundsCount (Player.stop h st).1 = Player.getSoundsCount st ∧
      (Player.stop h st).2 = [.soloudStop h] ∧
      (∀ x, x ∈ handlesOf st.sounds → x ≠ h →
        ∃ p, Player.findByHandle x (Player.stop h st).1.sounds = some p) := by
  obtain ⟨⟨i, j⟩, hfind⟩ := findByHandle_isSome h st.sounds hMem
  obtain ⟨a, hgi, hgj⟩ := findByHandle_some h st.sounds i j hfind
  have hmem_a : h ∈ a.handle := List.get?_mem hgj
  have hnd_a : a.handle.Nodup :=
    nodup_handle_of_mem a st.sounds hNd (List.get?_mem hgi)
  have hcount : a.handle.count h = 1 := List.count_eq_one_of_mem hnd_a hmem_a
  have herase : eraseRemove h a.handle = a.handle.erase h := by
    rw [eraseRemove_eq_filter h a.handle hcount]
    exact filter_bne_eq_erase h a.handle hnd_a
  have hstop1 : (Player.stop h st).1.sounds =
      modifyIdx (fun b => { b with handle := eraseRemove h b.handle })
        i st.sounds := by
    simp only [Player.stop, hfind]
  have hstop2 : (Player.stop h st).2 = [.soloudStop h] := by
    simp only [Player.stop, hfind]
  refine ⟨i, j, a, hfind, hgi, hmem_a, ?_, ?_, ?_, ?_, hstop2, ?_⟩
  · rw [hstop1]
    have := modifyIdx_get_self
      (fun b => { b with handle := eraseRemove h b.handle }) i st.sounds
      (some a) hgi
    simpa [herase] using this
  · have hlen := List.length_erase_of_mem hmem_a
    have hpos := List.length_pos_of_mem hmem_a
    omega
  · intro k hk
    rw [hstop1]
    exact modifyIdx_get_ne _ i k st.sounds hk
  · simp only [Player.getSoundsCount, hstop1]
    exact modifyIdx_length _ i st.sounds
  · intro x hxmem hxne
    rw [hstop1]
    apply findByHandle_isSome
    rcases (mem_handlesOf x st.sounds).mp hxmem with ⟨b, hbmem, hxb⟩
    rcases List.mem_iff_get?.mp hbmem with ⟨k, hk⟩
    by_cases hki : k = i
    · subst hki
      rw [hk] at hgi
      have hba : b = a := Option.some.inj (Option.some.inj hgi)
      rw [hba] at hk hxb
      have hget := modifyIdx_get_self
        (fun c => { c with handle := eraseRemove h c.handle }) k st.sounds
        (some a) hk
      refine (mem_handlesOf x _).mpr
        ⟨{ a with handle := eraseRemove h a.handle },
         List.get?_mem hget, ?_⟩
      show x ∈ eraseRemove h a.handle
      rw [herase]
      exact (List.mem_erase_of_ne hxne).mpr hxb
    · have hget := modifyIdx_get_ne
        (fun c => { c with handle := eraseRemove h c.handle }) i k st.sounds hki
      rw [hk] at hget
      exact (mem_handlesOf x _).mpr ⟨b, List.get?_mem hget, hxb⟩

theorem stop_removes_exactly_one_witness :
    ∃ i j a,
      Player.findByHandle 4
          [some ({ completeFileName := "a.wav", handle := [4, 6],
                   soundHash := 5 } : ActiveSound)] = some (i, j) ∧
      [some ({ completeFileName := "a.wav", handle := [4, 6],
               soundHash := 5 } : ActiveSound)].get? i = some (some a) ∧
      4 ∈ a.handle ∧
      (Player.stop 4
          { sounds := [some { completeFileName := "a.wav", handle := [4, 6],
                              soundHash := 5 }],
            mInited := true }).1.sounds.get? i =
        some (some { a with handle := a.handle.erase 4 }) ∧
      (a.handle.erase 4).length + 1 = a.handle.length ∧
      (∀ k, k ≠ i →
        (Player.stop 4
            { sounds := [some { completeFileName := "a.wav", handle := [4, 6],
                                soundHash := 5 }],
              mInited := true }).1.sounds.get? k =
          [some ({ completeFileName := "a.wav", handle := [4, 6],
                   soundHash := 5 } : ActiveSound)].get? k) ∧
      Player.getSoundsCount
          (Player.stop 4
            { sounds := [some { completeFileName := "a.wav", handle := [4, 6],
                                soundHash := 5 }],
              mInited := true }).1 =
        Player.getSoundsCount
          { sounds := [some { completeFileName := "a.wav", handle := [4, 6],
                              soundHash := 5 }],
            mInited := true } ∧
      (Player.stop 4
          { sounds := [some { completeFileName := "a.wav", handle := [4, 6],
                              soundHash := 5 }],
            mInited := true }).2 = [.soloudStop 4] ∧
      (∀ x, x ∈ handlesOf
          [some ({ completeFileName := "a.wav", handle := [4, 6],
                   soundHash := 5 } : ActiveSound)] → x ≠ 4 →
        ∃ p, Player.findByHandle x
          (Player.stop 4
            { sounds := [some { completeFileName := "a.wav", handle := [4, 6],
                                soundHash := 5 }],
              mInited := true }).1.sounds = some p) :=
  stop_removes_exactly_one
    { sounds := [some { completeFileName := "a.wav", handle := [4, 6],
                        soundHash := 5 }],
      mInited := true } 4 (by decide) (by decide) (by decide)

theorem play_appends_engine_handle_witness :
    ∃ i a,
      [some ({ completeFileName := "a.wav", handle := [5],
               soundHash := 1 } : ActiveSound)].get? i = some (some a) ∧
      a.soundHash = 1 ∧
      (Player.play 0 1
          { sounds := [some { completeFileName := "a.wav", handle := [5],
                              soundHash := 1 }],
            mInited := true }).1 = 0 ∧
      (Player.play 0 1
          { sounds := [some { completeFileName := "a.wav", handle := [5],
                              soundHash := 1 }],
            mInited := true }).2.1.sounds.get? i =
        some (some { a with handle := a.handle ++ [0] }) ∧
      (∀ k, k ≠ i →
        (Player.play 0 1
            { sounds := [some { completeFileName := "a.wav", handle := [5],
                                soundHash := 1 }],
              mInited := true }).2.1.sounds.get? k =
          [some ({ completeFileName := "a.wav", handle := [5],
                   soundHash := 1 } : ActiveSound)].get? k) ∧
      (Player.play 0 1
          { sounds := [some { completeFileName := "a.wav", handle := [5],
                              soundHash := 1 }],
            mInited := true }).2.1.sounds.length =
        [some ({ completeFileName := "a.wav", handle := [5],
                 soundHash := 1 } : ActiveSound)].length ∧
      (Player.play 0 1
          { sounds := [some { completeFileName := "a.wav", handle := [5],
                              soundHash := 1 }],
            mInited := true }).2.2 = [.soloudPlay 1] ∧
      Player.play3d 0 1
          { sounds := [some { completeFileName := "a.wav", handle := [5],
                              soundHash := 1 }],
            mInited := true } =
        ((Player.play 0 1
            { sounds := [some { completeFileName := "a.wav", handle := [5],
                                soundHash := 1 }],
              mInited := true }).1,
         (Player.play 0 1
            { sounds := [some { completeFileName := "a.wav", handle := [5],
                                soundHash := 1 }],
              mInited := true }).2.1, [.soloudPlay3d 1]) :=
  play_appends_engine_handle
    { sounds := [some { completeFileName := "a.wav", handle := [5],
                        soundHash := 1 }],
      mInited := true } 1 0 (by decide) rfl
